import Mathlib

/-!
Verification of the flux bootstrap/convergence engine against its
natural-language specification.

The development shallowly embeds the parts of the Go source that the
claims are about:

* `Gogit` — the repository driver `internal/bootstrap/git/gogit/gogit.go`
  (`Init`, `Clone`, `Write`, `Commit`, `Push`, `Status`, `Head`);
* `Ready` — the readiness observation closures of
  `cmd/tk/create_source_git.go` (`isGitRepositoryReady`,
  `isKustomizationReady`) and the polling loop around them;
* `Install` — the install manifest generator
  `pkg/manifestgen/install/manifests.go` (`generate`);
* `Bootstrap` — the orchestrator control flow of
  `cmd/flux/bootstrap_gitlab.go` (`bootstrapGitLabCmdRun`).

External collaborators (the git transport, the cluster client, the
hosting provider) are modelled as explicit outcome parameters: every
embedded function takes the outcomes of its external calls as input
and is otherwise a pure function of them.
-/

namespace Gogit

/-- One entry of the map returned by the go-git `wt.Status()` call inside
`GoGit.Commit`: a path the worktree reports as changed, together with the
information the driver later queries about it via `os.Lstat` / `os.Stat`
(`isSymlink`: the lstat mode has `ModeSymlink` set; `statTargetExists`:
`os.Stat` on the path succeeds, i.e. a symlink target is present;
`lstatFails`: `os.Lstat` itself returns an error). -/
structure StatusEntry where
  file : String
  isSymlink : Bool
  statTargetExists : Bool
  lstatFails : Bool
deriving DecidableEq

/-- The state of an open go-git repository as seen by the driver:
the configured remote URL, the symbolic branch reference HEAD points at,
the commit history as a list of revision strings (most recent first,
so `history.headD` is the HEAD revision), the current worktree status
(what `wt.Status()` reports), and the worktree file contents. -/
structure Repo where
  remoteURL : String
  headRef : String
  history : List String
  status : List StatusEntry
  worktree : List (String × String)
deriving DecidableEq

/-- The `GoGit` struct of `gogit.go`: a working-copy path and an optional
open repository (`repository == nil` before a successful `Init`/`Clone`). -/
structure GoGit where
  path : String
  repository : Option Repo
deriving DecidableEq

/-- Errors surfaced by the driver. `noGitRepository` and `noStagedFiles`
are the sentinel errors `git.ErrNoGitRepository` and `git.ErrNoStagedFiles`;
`lstatFailed` is the wrapped `os.Lstat` error of `Commit`; `headNotFound`
models `repository.Head()` failing (no commits yet); `other` carries any
further error verbatim by its message. -/
inductive GitError where
  | noGitRepository
  | noStagedFiles
  | lstatFailed (file : String)
  | headNotFound
  | other (msg : String)
deriving DecidableEq

/-- The `git.Commit` value passed to `GoGit.Commit` (author name, author
email, commit message). -/
structure CommitMessage where
  name : String
  email : String
  message : String
deriving DecidableEq

/-- A status entry is staged by the `Commit` loop unless it is a broken
symlink (symlink whose `os.Stat` reports a missing target): the loop
`continue`s exactly on `info.Mode()&os.ModeSymlink > 0` with
`os.IsNotExist(os.Stat(abspath))`. -/
def staged (e : StatusEntry) : Bool :=
  !(e.isSymlink && !e.statTargetExists)

/-- The staging loop of `GoGit.Commit`: walk the status entries, fail on an
`os.Lstat` error, skip broken symlinks, `wt.Add` everything else; the
returned flag is the final value of the `changed` variable. -/
def stageAll : List StatusEntry → Except GitError Bool
  | [] => .ok false
  | e :: rest =>
    if e.lstatFails then .error (.lstatFailed e.file)
    else if e.isSymlink && !e.statTargetExists then stageAll rest
    else
      match stageAll rest with
      | .error er => .error er
      | .ok _ => .ok true

/-- `plumbing.NewBranchReferenceName`. -/
def branchRefName (branch : String) : String := "refs/heads/" ++ branch

/-- The repository produced by `GoGit.Init`: `PlainInit` plus a remote
named after the URL, and HEAD re-pointed at the requested branch via a
symbolic reference (no commits, clean worktree). -/
def freshRepo (url branch : String) : Repo :=
  { remoteURL := url
    headRef := branchRefName branch
    history := []
    status := []
    worktree := [] }

/-- `GoGit.Init(url, branch)`: a no-op returning `(false, nil)` when a
repository is already open, otherwise initializes a fresh local repository
with `branch` as the default HEAD reference and returns `(true, nil)`.
The underlying local-disk plumbing calls (`PlainInit`, `CreateRemote`,
`CreateBranch`, `SetReference`) are modelled as succeeding. -/
def Init (url branch : String) (g : GoGit) : GoGit × Bool × Option GitError :=
  match g.repository with
  | some _ => (g, false, none)
  | none => ({ g with repository := some (freshRepo url branch) }, true, none)

/-- Outcome of the remote `PlainCloneContext` call of `GoGit.Clone`:
a successfully cloned repository, the sentinel
`transport.ErrEmptyRemoteRepository`, or any other error by its message. -/
inductive CloneOutcome where
  | success (r : Repo)
  | emptyRemote
  | failure (msg : String)
deriving DecidableEq

/-- `strings.Contains`. -/
def containsSubstr (s pat : String) : Bool := decide (pat.data <:+: s.data)

/-- The single-quote character, spelled via its code point. -/
def apos : String := String.singleton (Char.ofNat 39)

/-- The needle `fmt.Sprintf("couldn%st find remote ref %%q", apos)` that
`isRemoteBranchNotFoundErr` searches for: the Go `%q` verb renders a plain
reference name as the name surrounded by double quotes. -/
def remoteRefNotFoundNeedle (ref : String) : String :=
  "couldn" ++ apos ++ "t find remote ref \"" ++ ref ++ "\""

/-- `isRemoteBranchNotFoundErr(err, ref)`: the error message contains the
go-git "could not find remote ref" text for this reference. -/
def isRemoteBranchNotFoundErr (msg ref : String) : Bool :=
  containsSubstr msg (remoteRefNotFoundNeedle ref)

/-- `GoGit.Clone(url, branch)`: attempt the remote clone; when it fails
with `transport.ErrEmptyRemoteRepository` or with a remote-branch-not-found
error for the requested branch, fall back to `Init`; return every other
failure verbatim. -/
def Clone (outcome : CloneOutcome) (url branch : String) (g : GoGit) :
    GoGit × Bool × Option GitError :=
  match outcome with
  | .success r => ({ g with repository := some r }, true, none)
  | .emptyRemote => Init url branch g
  | .failure msg =>
    if isRemoteBranchNotFoundErr msg (branchRefName branch) then Init url branch g
    else (g, false, some (.other msg))

/-- Insert-or-overwrite for the worktree file list (`wt.Filesystem.Create`
plus `io.Copy`). -/
def setFile : List (String × String) → String → String → List (String × String)
  | [], p, c => [(p, c)]
  | (q, d) :: rest, p, c =>
    if q = p then (p, c) :: rest else (q, d) :: setFile rest p c

/-- `GoGit.Write(path, reader)`: requires an open repository, then writes
the content to the worktree file at `path`. -/
def Write (p content : String) (g : GoGit) : GoGit × Option GitError :=
  match g.repository with
  | none => (g, some .noGitRepository)
  | some r =>
    ({ g with repository := some { r with worktree := setFile r.worktree p content } }, none)

/-- `GoGit.Commit(message)`: requires an open repository; runs the staging
loop over the worktree status; when nothing was staged, returns the current
HEAD revision together with `git.ErrNoStagedFiles` and leaves the state
unchanged; otherwise creates one commit. The new revision string `newRev`
(the content-addressed hash computed by go-git) is an input of the model;
committed paths leave the status, skipped broken symlinks remain. -/
def Commit (newRev : String) (msg : CommitMessage) (g : GoGit) :
    GoGit × String × Option GitError :=
  match g.repository with
  | none => (g, "", some .noGitRepository)
  | some r =>
    match stageAll r.status with
    | .error e => (g, "", some e)
    | .ok false =>
      match r.history with
      | [] => (g, "", some .headNotFound)
      | h :: _ => (g, h, some .noStagedFiles)
    | .ok true =>
      ({ g with repository := some { r with
           history := newRev :: r.history
           status := r.status.filter fun e => e.isSymlink && !e.statTargetExists } },
       newRev, none)

/-- `GoGit.Push(ctx)`: requires an open repository, then performs the
remote push whose outcome (`nil` or an error message) is supplied by the
transport. -/
def Push (remoteResult : Option String) (g : GoGit) : GoGit × Option GitError :=
  match g.repository with
  | none => (g, some .noGitRepository)
  | some _ => (g, remoteResult.map .other)

/-- `GoGit.Status()`: requires an open repository and returns
`status.IsClean()` for the worktree status, with no symlink filtering. -/
def Status (g : GoGit) : Bool × Option GitError :=
  match g.repository with
  | none => (false, some .noGitRepository)
  | some r => (r.status.isEmpty, none)

/-- `GoGit.Head()`: requires an open repository and returns the HEAD
revision string. -/
def Head (g : GoGit) : String × Option GitError :=
  match g.repository with
  | none => ("", some .noGitRepository)
  | some r =>
    match r.history with
    | [] => ("", some .headNotFound)
    | h :: _ => (h, none)

/-- If the staging loop reports a change, some status entry was staged. -/
theorem stageAll_ok_true_exists (l : List StatusEntry) (h : stageAll l = .ok true) :
    ∃ e ∈ l, staged e = true := by
  induction l with
  | nil => simp [stageAll] at h
  | cons e rest ih =>
    by_cases hl : e.lstatFails
    · simp [stageAll, hl] at h
    · by_cases hb : e.isSymlink && !e.statTargetExists
      · have h' : stageAll rest = .ok true := by
          simpa [stageAll, hl, hb] using h
        obtain ⟨x, hx, hs⟩ := ih h'
        exact ⟨x, List.mem_cons_of_mem _ hx, hs⟩
      · have hb' : (e.isSymlink && !e.statTargetExists) = false := by
          simpa using hb
        exact ⟨e, List.mem_cons_self e rest, by simp [staged, hb']⟩

/-- When every status entry lstats cleanly the staging loop cannot fail. -/
theorem stageAll_ok_of_lstat (l : List StatusEntry)
    (hok : ∀ e ∈ l, e.lstatFails = false) : ∃ b, stageAll l = .ok b := by
  induction l with
  | nil => exact ⟨false, rfl⟩
  | cons e rest ih =>
    have hl : e.lstatFails = false := hok e (List.mem_cons_self e rest)
    obtain ⟨b, hb⟩ := ih (fun x hx => hok x (List.mem_cons_of_mem _ hx))
    by_cases hbe : e.isSymlink && !e.statTargetExists
    · exact ⟨b, by simp [stageAll, hl, hbe, hb]⟩
    · exact ⟨true, by simp [stageAll, hl, hbe, hb]⟩

/-- If every status entry lstats cleanly and some entry is staged, the
staging loop reports a change. -/
theorem stageAll_ok_true_of_exists (l : List StatusEntry)
    (hok : ∀ e ∈ l, e.lstatFails = false) (hex : ∃ e ∈ l, staged e = true) :
    stageAll l = .ok true := by
  induction l with
  | nil => simp at hex
  | cons e rest ih =>
    have hl : e.lstatFails = false := hok e (List.mem_cons_self e rest)
    have hok' : ∀ x ∈ rest, x.lstatFails = false := fun x hx =>
      hok x (List.mem_cons_of_mem _ hx)
    by_cases hb : e.isSymlink && !e.statTargetExists
    · have hex' : ∃ x ∈ rest, staged x = true := by
        obtain ⟨x, hx, hs⟩ := hex
        rcases List.mem_cons.mp hx with rfl | hx'
        · simp [staged, hb] at hs
        · exact ⟨x, hx', hs⟩
      simp [stageAll, hl, hb, ih hok' hex']
    · obtain ⟨b, hb'⟩ := stageAll_ok_of_lstat rest hok'
      simp [stageAll, hl, hb, hb']

/-- If every status entry lstats cleanly and no entry is staged, the
staging loop reports no change. -/
theorem stageAll_ok_false_of_none (l : List StatusEntry)
    (hok : ∀ e ∈ l, e.lstatFails = false) (hno : ∀ e ∈ l, staged e = false) :
    stageAll l = .ok false := by
  induction l with
  | nil => rfl
  | cons e rest ih =>
    have hl : e.lstatFails = false := hok e (List.mem_cons_self e rest)
    have he : staged e = false := hno e (List.mem_cons_self e rest)
    have hb : (e.isSymlink && !e.statTargetExists) = true := by
      simpa [staged] using he
    have := ih (fun x hx => hok x (List.mem_cons_of_mem _ hx))
      (fun x hx => hno x (List.mem_cons_of_mem _ hx))
    simp [stageAll, hl, hb, this]

/-- A worktree status consisting of one genuinely new broken symlink:
the link is present (`os.Lstat` succeeds and reports a symlink) but its
target is absent (`os.Stat` fails with not-exist). -/
def brokenSymlinkEntry : StatusEntry :=
  { file := "lnk", isSymlink := true, statTargetExists := false, lstatFails := false }

/-- An open repository at revision `aaaa` whose worktree differs from HEAD
by exactly one newly created broken symlink. -/
def brokenSymlinkRepo : Repo :=
  { remoteURL := "https://example.com/repo.git"
    headRef := branchRefName "main"
    history := ["aaaa"]
    status := [brokenSymlinkEntry]
    worktree := [] }

/-- The driver handle holding `brokenSymlinkRepo`. -/
def brokenSymlinkGit : GoGit :=
  { path := "/tmp/wc", repository := some brokenSymlinkRepo }

/-- An open repository at revision `aaaa` whose worktree is identical to
HEAD (empty status). -/
def cleanRepo : Repo :=
  { remoteURL := "https://example.com/repo.git"
    headRef := branchRefName "main"
    history := ["aaaa"]
    status := []
    worktree := [] }

/-- The driver handle holding `cleanRepo`. -/
def cleanGit : GoGit := { path := "/tmp/wc", repository := some cleanRepo }

/-- An open repository whose worktree differs from HEAD by one ordinary
(non-symlink) file. -/
def dirtyRepo : Repo :=
  { remoteURL := "https://example.com/repo.git"
    headRef := branchRefName "main"
    history := ["aaaa"]
    status := [{ file := "kustomization.yaml", isSymlink := false,
                 statTargetExists := true, lstatFails := false }]
    worktree := [] }

/-- The driver handle holding `dirtyRepo`. -/
def dirtyGit : GoGit := { path := "/tmp/wc", repository := some dirtyRepo }

/-- C1 (amended): for an open repository, `Commit` on a worktree identical
to HEAD returns the current HEAD revision together with
`git.ErrNoStagedFiles` and leaves the state unchanged; `Commit` on a
worktree with at least one staged change (a reported change that is not a
broken symlink) creates exactly one new commit whose parent is the prior
HEAD and returns its revision; and a commit is only ever created when some
status entry was staged, so an empty commit is never produced. -/
theorem commit_if_changed_correct (g : GoGit) (r : Repo)
    (newRev : String) (msg : CommitMessage) (hrep : g.repository = some r) :
    (r.status = [] → ∀ h t, r.history = h :: t →
        Commit newRev msg g = (g, h, some .noStagedFiles))
    ∧ ((∀ e ∈ r.status, e.lstatFails = false) → (∃ e ∈ r.status, staged e = true) →
        Commit newRev msg g =
          ({ g with repository := some { r with
               history := newRev :: r.history
               status := r.status.filter fun e => e.isSymlink && !e.statTargetExists } },
           newRev, none))
    ∧ (∀ g2 rev2 err2, Commit newRev msg g = (g2, rev2, err2) → g2 ≠ g →
        ∃ e ∈ r.status, staged e = true) := by
  refine ⟨?_, ?_, ?_⟩
  · intro hs h t hh
    simp [Commit, hrep, hs, stageAll, hh]
  · intro hok hex
    simp [Commit, hrep, stageAll_ok_true_of_exists r.status hok hex]
  · intro g2 rev2 err2 hc hne
    cases hst : stageAll r.status with
    | error e =>
      simp [Commit, hrep, hst] at hc
      exact absurd hc.1.symm hne
    | ok b =>
      cases b with
      | false =>
        cases hh : r.history with
        | nil => simp [Commit, hrep, hst, hh] at hc; exact absurd hc.1.symm hne
        | cons h t => simp [Commit, hrep, hst, hh] at hc; exact absurd hc.1.symm hne
      | true => exact stageAll_ok_true_exists r.status hst

/-- C1 witness: the amended theorem applied to concrete clean and dirty
repositories. -/
theorem commit_if_changed_correct_witness :
    Commit "bbbb" { name := "n", email := "e", message := "m" } cleanGit
      = (cleanGit, "aaaa", some .noStagedFiles) ∧
    Commit "bbbb" { name := "n", email := "e", message := "m" } dirtyGit
      = ({ dirtyGit with repository := some { dirtyRepo with
             history := "bbbb" :: dirtyRepo.history
             status := dirtyRepo.status.filter fun e => e.isSymlink && !e.statTargetExists } },
         "bbbb", none) := by
  constructor
  · exact (commit_if_changed_correct cleanGit cleanRepo "bbbb"
      { name := "n", email := "e", message := "m" } rfl).1 rfl "aaaa" [] rfl
  · exact (commit_if_changed_correct dirtyGit dirtyRepo "bbbb"
      { name := "n", email := "e", message := "m" } rfl).2.1
      (by decide) (by decide)

/-- C1 counterexample: a worktree that differs from HEAD (its status is
non-empty: a newly created broken symlink) on which `Commit` creates no
commit at all, returning the old HEAD with the no-changes error — refuting
the claim that any difference from HEAD yields a new commit. -/
theorem commit_differs_no_commit_counterexample :
    brokenSymlinkRepo.status ≠ [] ∧
    Commit "bbbb" { name := "n", email := "e", message := "m" } brokenSymlinkGit
      = (brokenSymlinkGit, "aaaa", some .noStagedFiles) := by
  exact ⟨by decide, by decide⟩

/-- C3 (amended): when the worktree of an open repository differs from HEAD
only by broken symlinks, `Commit` stages nothing and returns the current
HEAD revision with the no-changes error, leaving the state unchanged; the
`Status` operation, however, reports the tree as not clean, because the
broken-symlink exclusion is applied only inside `Commit` and
`GoGit.Status` returns the unfiltered `status.IsClean()`. -/
theorem broken_symlink_commit_no_change (g : GoGit) (r : Repo)
    (newRev : String) (msg : CommitMessage)
    (hrep : g.repository = some r) (hne : r.status ≠ [])
    (hbrk : ∀ e ∈ r.status,
      e.isSymlink = true ∧ e.statTargetExists = false ∧ e.lstatFails = false) :
    (∀ h t, r.history = h :: t →
        Commit newRev msg g = (g, h, some .noStagedFiles))
    ∧ Status g = (false, none) := by
  constructor
  · intro h t hh
    have hok : ∀ e ∈ r.status, e.lstatFails = false := fun e he => (hbrk e he).2.2
    have hno : ∀ e ∈ r.status, staged e = false := by
      intro e he
      obtain ⟨h1, h2, _⟩ := hbrk e he
      simp [staged, h1, h2]
    simp [Commit, hrep, stageAll_ok_false_of_none r.status hok hno, hh]
  · have : r.status.isEmpty = false := by
      cases hs : r.status with
      | nil => exact absurd hs hne
      | cons a l => rfl
    simp [Status, hrep, this]

/-- C3 witness: the amended theorem applied to the concrete
broken-symlink repository. -/
theorem broken_symlink_commit_no_change_witness :
    (Commit "bbbb" { name := "n", email := "e", message := "m" } brokenSymlinkGit
      = (brokenSymlinkGit, "aaaa", some .noStagedFiles))
    ∧ Status brokenSymlinkGit = (false, none) := by
  have h := broken_symlink_commit_no_change brokenSymlinkGit brokenSymlinkRepo
    "bbbb" { name := "n", email := "e", message := "m" } rfl (by decide) (by decide)
  exact ⟨h.1 "aaaa" [] rfl, h.2⟩

/-- C3 counterexample: on the repository whose only difference from HEAD is
a broken symlink, `GoGit.Status` reports the tree as dirty
(`isClean = false`), refuting the claim that `isClean` reports it clean. -/
theorem broken_symlink_status_counterexample :
    Status brokenSymlinkGit = (false, none) := by decide

/-- C5: on a handle with no open repository, `Clone` stores a successfully
cloned repository; when the clone fails because the remote is entirely
empty or because the requested branch is absent on the remote, it falls
back to initializing a fresh local repository whose HEAD symbolic
reference is the requested branch and reports success; every other clone
failure is returned verbatim with no repository opened. -/
theorem clone_fallback_on_empty_or_missing_branch (g : GoGit)
    (url branch : String) (out : CloneOutcome) (hrep : g.repository = none) :
    (∀ r, out = .success r →
        Clone out url branch g = ({ g with repository := some r }, true, none))
    ∧ (out = .emptyRemote →
        Clone out url branch g
          = ({ g with repository := some (freshRepo url branch) }, true, none))
    ∧ (∀ msg, out = .failure msg →
        isRemoteBranchNotFoundErr msg (branchRefName branch) = true →
        Clone out url branch g
          = ({ g with repository := some (freshRepo url branch) }, true, none))
    ∧ (∀ msg, out = .failure msg →
        isRemoteBranchNotFoundErr msg (branchRefName branch) = false →
        Clone out url branch g = (g, false, some (.other msg))) := by
  refine ⟨?_, ?_, ?_, ?_⟩
  · intro r hout; subst hout; rfl
  · intro hout; subst hout; simp [Clone, Init, hrep]
  · intro msg hout hmatch; subst hout; simp [Clone, Init, hrep, hmatch]
  · intro msg hout hmatch; subst hout; simp [Clone, hmatch]

/-- C5 witness: the theorem applied to a fresh handle, once for the
empty-remote fallback and once for a verbatim failure. -/
theorem clone_fallback_witness :
    (Clone .emptyRemote "https://example.com/repo.git" "main" { path := "/tmp/wc", repository := none }
      = ({ path := "/tmp/wc",
           repository := some (freshRepo "https://example.com/repo.git" "main") }, true, none))
    ∧ (Clone (.failure "authentication required") "https://example.com/repo.git" "main"
        { path := "/tmp/wc", repository := none }
      = ({ path := "/tmp/wc", repository := none }, false,
         some (.other "authentication required"))) := by
  constructor
  · exact (clone_fallback_on_empty_or_missing_branch
      { path := "/tmp/wc", repository := none }
      "https://example.com/repo.git" "main" .emptyRemote rfl).2.1 rfl
  · exact (clone_fallback_on_empty_or_missing_branch
      { path := "/tmp/wc", repository := none }
      "https://example.com/repo.git" "main" (.failure "authentication required") rfl).2.2.2
      "authentication required" rfl (by decide)

/-- C10: every driver operation that requires an open working copy
(`Write`, `Commit`, `Push`, `Status`, `Head`), invoked on a handle before
any successful `Init` or `Clone` (`repository == nil`), returns the
`git.ErrNoGitRepository` error and leaves the handle unchanged. -/
theorem ops_before_open_return_no_git_repository (g : GoGit)
    (hrep : g.repository = none) :
    (∀ p c, Write p c g = (g, some .noGitRepository))
    ∧ (∀ rev msg, Commit rev msg g = (g, "", some .noGitRepository))
    ∧ (∀ res, Push res g = (g, some .noGitRepository))
    ∧ Status g = (false, some .noGitRepository)
    ∧ Head g = ("", some .noGitRepository) := by
  refine ⟨?_, ?_, ?_, ?_, ?_⟩ <;> simp [Write, Commit, Push, Status, Head, hrep]

/-- C10 witness: the theorem applied to a fresh, never-opened handle. -/
theorem ops_before_open_witness :
    (Write "a.yaml" "data" { path := "/tmp/wc", repository := none }
      = ({ path := "/tmp/wc", repository := none }, some .noGitRepository))
    ∧ (Commit "bbbb" { name := "n", email := "e", message := "m" }
        { path := "/tmp/wc", repository := none }
      = ({ path := "/tmp/wc", repository := none }, "", some .noGitRepository))
    ∧ (Push none { path := "/tmp/wc", repository := none }
      = ({ path := "/tmp/wc", repository := none }, some .noGitRepository))
    ∧ Status { path := "/tmp/wc", repository := none } = (false, some .noGitRepository)
    ∧ Head { path := "/tmp/wc", repository := none } = ("", some .noGitRepository) := by
  have h := ops_before_open_return_no_git_repository
    { path := "/tmp/wc", repository := none } rfl
  exact ⟨h.1 "a.yaml" "data",
         h.2.1 "bbbb" { name := "n", email := "e", message := "m" },
         h.2.2.1 none, h.2.2.2.1, h.2.2.2.2⟩

end Gogit

namespace Ready

/-- `corev1.ConditionStatus`: `True`, `False` or `Unknown`. -/
inductive ConditionStatus where
  | conditionTrue
  | conditionFalse
  | conditionUnknown
deriving DecidableEq

/-- One entry of the `Status.Conditions` list of an object: a named condition
with a status and a message. -/
structure Condition where
  type : String
  status : ConditionStatus
  message : String
deriving DecidableEq

/-- `sourcev1.ReadyCondition`. -/
def readyCondition : String := "Ready"

/-- The condition scan shared verbatim by `isGitRepositoryReady` and
`isKustomizationReady`: walk `Status.Conditions`; on the first condition
of the ready type, status `True` returns `(true, nil)` and status `False`
returns `(false, errors.New(condition.Message))`; any other entry is
passed over; falling off the loop returns `(false, nil)`. -/
def readyScan : List Condition → Bool × Option String
  | [] => (false, none)
  | c :: rest =>
    if c.type = readyCondition then
      if c.status = .conditionTrue then (true, none)
      else if c.status = .conditionFalse then (false, some c.message)
      else readyScan rest
    else readyScan rest

/-- `isGitRepositoryReady(ctx, kubeClient, name, namespace)` as one
observation: the `kubeClient.Get` outcome is supplied (a failed get
surfaces its error and aborts the poll), then the conditions of the
fetched GitRepository are scanned. -/
def isGitRepositoryReady (fetch : Except String (List Condition)) :
    Bool × Option String :=
  match fetch with
  | .error e => (false, some e)
  | .ok conds => readyScan conds

/-- `isKustomizationReady(ctx, kubeClient, name, namespace)` as one
observation, identical in structure to `isGitRepositoryReady` but reading
a Kustomization object. -/
def isKustomizationReady (fetch : Except String (List Condition)) :
    Bool × Option String :=
  match fetch with
  | .error e => (false, some e)
  | .ok conds => readyScan conds

/-- The verdict the claim expects from one observation of an object whose
ready-type condition is `c`. -/
def readyVerdict (c : Condition) : Bool × Option String :=
  match c.status with
  | .conditionTrue => (true, none)
  | .conditionFalse => (false, some c.message)
  | .conditionUnknown => (false, none)

/-- Result of a readiness poll. -/
inductive PollResult where
  | ready
  | failed (msg : String)
  | timedOut
deriving DecidableEq

/-- One tick of the poll over several targets: the observations are
combined in order; a target whose observation carries an error aborts the
tick with that error, otherwise the tick reports whether all targets were
satisfied. Modelled from the spec: `pollReady` re-reads the readiness
condition of each target, and any target reporting Failed terminates the
poll immediately with the failure reason of that object. -/
def observeTargets : List (Bool × Option String) → Except String Bool
  | [] => .ok true
  | (_, some e) :: _ => .error e
  | (b, none) :: rest =>
    match observeTargets rest with
    | .error e => .error e
    | .ok all => .ok (b && all)

/-- The poll loop. Modelled from the spec: `pollReady(targets,
pollInterval, deadline)` repeats the per-tick observation at each interval
until all targets report Ready, any reports Failed (immediate abort with
that reason), or the deadline (`fuel` remaining ticks) elapses with a
distinguishable timeout. The targets are time-indexed observation
functions, `t` the current tick. -/
def pollReady (obs : List (Nat → Bool × Option String)) :
    Nat → Nat → PollResult
  | _, 0 => .timedOut
  | t, fuel + 1 =>
    match observeTargets (obs.map fun f => f t) with
    | .error e => .failed e
    | .ok true => .ready
    | .ok false => pollReady obs (t + 1) fuel

/-- Scanning a condition list without a ready-type condition yields the
keep-polling verdict. -/
theorem readyScan_no_ready (conds : List Condition)
    (h : conds.filter (fun c => c.type == readyCondition) = []) :
    readyScan conds = (false, none) := by
  induction conds with
  | nil => rfl
  | cons c rest ih =>
    by_cases hc : c.type = readyCondition
    · simp [List.filter_cons, hc] at h
    · have h' : rest.filter (fun c => c.type == readyCondition) = [] := by
        simpa [List.filter_cons, hc] using h
      simp [readyScan, hc, ih h']

/-- Scanning a condition list whose only ready-type condition is `c0`
yields the verdict of `c0`. -/
theorem readyScan_unique_ready (conds : List Condition) (c0 : Condition)
    (h : conds.filter (fun c => c.type == readyCondition) = [c0]) :
    readyScan conds = readyVerdict c0 := by
  induction conds with
  | nil => simp at h
  | cons c rest ih =>
    by_cases hc : c.type = readyCondition
    · have h' : c = c0 ∧ ∀ a ∈ rest, ¬a.type = readyCondition := by
        have := h
        simp [List.filter_cons, hc] at this
        exact this
      obtain ⟨rfl, hall⟩ := h'
      have hrest : rest.filter (fun c => c.type == readyCondition) = [] := by
        rw [List.filter_eq_nil_iff]
        intro a ha
        simpa using hall a ha
      cases hst : c.status <;>
        simp [readyScan, hc, hst, readyVerdict, readyScan_no_ready rest hrest]
    · have h' : rest.filter (fun c => c.type == readyCondition) = [c0] := by
        simpa [List.filter_cons, hc] using h
      simp [readyScan, hc, ih h']

/-- If every tick before `k` keeps polling and the tick at offset `k`
aborts with error `e`, the poll returns `failed e` for every fuel larger
than `k`, independently of how much deadline remains. -/
theorem pollReady_fail_fast (obs : List (Nat → Bool × Option String))
    (e : String) (k : Nat) :
    ∀ (t fuel : Nat),
      (∀ i, i < k → observeTargets (obs.map fun f => f (t + i)) = .ok false) →
      observeTargets (obs.map fun f => f (t + k)) = .error e →
      k < fuel → pollReady obs t fuel = .failed e := by
  induction k with
  | zero =>
    intro t fuel _ hfail hfuel
    match fuel, hfuel with
    | f + 1, _ =>
      rw [Nat.add_zero] at hfail
      simp [pollReady, hfail]
  | succ k ih =>
    intro t fuel hbefore hfail hfuel
    match fuel, hfuel with
    | f + 1, hfuel =>
      have h0 : observeTargets (obs.map fun f => f t) = .ok false := by
        simpa using hbefore 0 (Nat.succ_pos k)
      have hstep : pollReady obs t (f + 1) = pollReady obs (t + 1) f := by
        simp [pollReady, h0]
      rw [hstep]
      refine ih (t + 1) f ?_ ?_ (Nat.lt_of_succ_lt_succ hfuel)
      · intro i hi
        have := hbefore (i + 1) (Nat.succ_lt_succ hi)
        have harith : t + (i + 1) = t + 1 + i := by omega
        rwa [harith] at this
      · have harith : t + (k + 1) = t + 1 + k := by omega
        rwa [harith] at hfail

/-- C7: one observation step of the readiness poll (for both
`isGitRepositoryReady` and `isKustomizationReady`) is satisfied exactly
when the ready condition of the object has status `True`, aborts with
the own condition message of that object exactly when the condition has status
`False`, and keeps polling when the condition is `Unknown` or absent; and
a poll over several targets in which some tick observes a Failed target
returns that failure without consuming the remaining deadline. -/
theorem readiness_observation_and_fail_fast :
    (∀ (conds : List Condition) (c0 : Condition),
      conds.filter (fun c => c.type == readyCondition) = [c0] →
      isGitRepositoryReady (.ok conds) = readyVerdict c0
      ∧ isKustomizationReady (.ok conds) = readyVerdict c0)
    ∧ (∀ conds : List Condition,
      conds.filter (fun c => c.type == readyCondition) = [] →
      isGitRepositoryReady (.ok conds) = (false, none)
      ∧ isKustomizationReady (.ok conds) = (false, none))
    ∧ (∀ (obs : List (Nat → Bool × Option String)) (e : String) (k t fuel : Nat),
      (∀ i, i < k → observeTargets (obs.map fun f => f (t + i)) = .ok false) →
      observeTargets (obs.map fun f => f (t + k)) = .error e →
      k < fuel → pollReady obs t fuel = .failed e) := by
  refine ⟨?_, ?_, ?_⟩
  · intro conds c0 h
    exact ⟨readyScan_unique_ready conds c0 h, readyScan_unique_ready conds c0 h⟩
  · intro conds h
    exact ⟨readyScan_no_ready conds h, readyScan_no_ready conds h⟩
  · intro obs e k t fuel hbefore hfail hfuel
    exact pollReady_fail_fast obs e k t fuel hbefore hfail hfuel

/-- A target that is Unknown at tick 0 and Failed from tick 1 on. -/
def exampleFailingTarget : Nat → Bool × Option String :=
  fun t => if t = 0 then (false, none) else (false, some "health check failed")

/-- A target that reports Ready at every tick. -/
def exampleReadyTarget : Nat → Bool × Option String := fun _ => (true, none)

/-- C7 witness: the theorem applied to a concrete condition list (one
ready-type condition with status `False`) and to a concrete two-target
poll that fails at the second tick long before the deadline. -/
theorem readiness_observation_witness :
    isGitRepositoryReady (.ok
        [{ type := "Ready", status := .conditionFalse, message := "clone failed" }])
      = (false, some "clone failed")
    ∧ pollReady [exampleReadyTarget, exampleFailingTarget] 0 100
      = .failed "health check failed" := by
  constructor
  · exact (readiness_observation_and_fail_fast.1
      [{ type := "Ready", status := .conditionFalse, message := "clone failed" }]
      { type := "Ready", status := .conditionFalse, message := "clone failed" }
      (by decide)).1
  · exact readiness_observation_and_fail_fast.2.2
      [exampleReadyTarget, exampleFailingTarget] "health check failed" 1 0 100
      (by
        intro i hi
        have hi0 : i = 0 := by omega
        subst hi0
        rfl)
      (by rfl) (by omega)

end Ready

namespace Install

/-- The fields of `install.Options` that the body of `generate` reads
directly (the remaining fields are only consumed by the templates, which
the abstract renderer receives through the whole `Options` value). -/
structure Options where
  ns : String
  components : List String
  notificationController : String
  eventsAddr : String
deriving DecidableEq

/-- Modelled from the spec: the default logical namespace returned by
`MakeDefaultOptions` (whose defining file is not among the sources); the
repository documents the namespace default as `flux-system`. -/
def defaultNamespace : String := "flux-system"

/-- `utils.ContainsItemString`. -/
def containsItemString (l : List String) (s : String) : Bool := l.contains s

/-- `bytes.ReplaceAll(s, old, new)` on character lists, for a non-empty
`old`: scan left to right, replacing each non-overlapping occurrence of
`old` by `rep`. The `skip` counter holds the number of characters still
belonging to the previous match, which were consumed when its replacement
was emitted. (The special case of the Go function for an empty `old` is not
modelled; `generate` only ever calls it with the non-empty default
namespace.) -/
def replaceAllAux (pat rep : List Char) : List Char → Nat → List Char
  | [], _ => []
  | _ :: rest, skip + 1 => replaceAllAux pat rep rest skip
  | c :: rest, 0 =>
    if pat ≠ [] ∧ pat.isPrefixOf (c :: rest) then
      rep ++ replaceAllAux pat rep rest (pat.length - 1)
    else c :: replaceAllAux pat rep rest 0

/-- `bytes.ReplaceAll` on strings. -/
def replaceAll (s pat rep : String) : String :=
  ⟨replaceAllAux pat.data rep.data s.data 0⟩

/-- Run-dependent ambient data available to a Go process: the clock and
the random source. `generate` reads neither; threading it through the
model makes that explicit. -/
structure Env where
  clockNow : Nat
  randomSeed : Nat
deriving DecidableEq

/-- The artifact set written by `generate(base, options)` of
`pkg/manifestgen/install/manifests.go`, as (relative path, content)
pairs. `render` is the (deterministic, options-only) template renderer
`execTemplate` applied to each of the five templates; `baseRbac` is the
pre-built composite `rbac.yaml` that `fetch` placed in the base directory
and that `generate` copies to `roles/rbac.yaml`; when the namespace
option differs from the default namespace, every occurrence of the
default namespace inside that one copy is substituted. -/
def generate (render : String → Options → String) (baseRbac : String)
    (options : Options) (env : Env) : List (String × String) :=
  let options2 :=
    if containsItemString options.components options.notificationController then
      { options with eventsAddr := "http://" ++ options.notificationController ++ "/" }
    else options
  let rbac :=
    if defaultNamespace ≠ options.ns then
      replaceAll baseRbac defaultNamespace options.ns
    else baseRbac
  [("namespace.yaml", render "namespace" options2),
   ("labels.yaml", render "labels" options2),
   ("node-selector.yaml", render "node-selector" options2),
   ("kustomization.yaml", render "kustomization" options2),
   ("roles/kustomization.yaml", render "roles-kustomization" options2),
   ("roles/rbac.yaml", rbac)]

/-- C9: install manifest generation is deterministic: its output depends
only on the renderer, the fetched base artifact and the `Options` value,
never on the ambient clock or random source, so two invocations with
identical parameters produce byte-identical contents for every generated
artifact file. -/
theorem generate_deterministic (render : String → Options → String)
    (baseRbac : String) (options : Options) (env1 env2 : Env) :
    generate render baseRbac options env1 = generate render baseRbac options env2
    ∧ ∀ p : String,
        (generate render baseRbac options env1).lookup p
          = (generate render baseRbac options env2).lookup p := by
  exact ⟨rfl, fun _ => rfl⟩

/-- C8: with a namespace option different from the default namespace, the
`roles/rbac.yaml` artifact is the fetched composite with every occurrence
of the default namespace replaced by the overridden namespace; with the
default namespace it is copied unchanged; and no other generated artifact
is post-processed this way — all artifacts except `roles/rbac.yaml` are
independent of the fetched composite, and the artifact paths are fixed. -/
theorem generate_rbac_namespace_rewrite (render : String → Options → String)
    (b1 b2 : String) (options : Options) (env : Env) :
    (options.ns ≠ defaultNamespace →
      (generate render b1 options env).lookup "roles/rbac.yaml"
        = some (replaceAll b1 defaultNamespace options.ns))
    ∧ (options.ns = defaultNamespace →
      (generate render b1 options env).lookup "roles/rbac.yaml" = some b1)
    ∧ (generate render b1 options env).dropLast
        = (generate render b2 options env).dropLast
    ∧ (generate render b1 options env).map Prod.fst
        = ["namespace.yaml", "labels.yaml", "node-selector.yaml",
           "kustomization.yaml", "roles/kustomization.yaml", "roles/rbac.yaml"] := by
  refine ⟨?_, ?_, rfl, rfl⟩
  · intro hns
    have h : defaultNamespace ≠ options.ns := fun h => hns h.symm
    simp [generate, List.lookup, h]
  · intro hns
    have h : ¬defaultNamespace ≠ options.ns := by simp [hns]
    simp [generate, List.lookup, h]

/-- C8 witness: the theorem applied to a concrete renderer, a concrete
composite with two occurrences of the default namespace, and an
overriding namespace — both occurrences are rewritten — plus the
unchanged copy under the default namespace. -/
theorem generate_rbac_namespace_rewrite_witness :
    ((generate (fun t o => t ++ ":" ++ o.ns) "sa: flux-system/x sa: flux-system/y"
        { ns := "gitops", components := [], notificationController := "nc",
          eventsAddr := "" } { clockNow := 0, randomSeed := 0 }).lookup "roles/rbac.yaml"
      = some "sa: gitops/x sa: gitops/y")
    ∧ ((generate (fun t o => t ++ ":" ++ o.ns) "sa: flux-system/x"
        { ns := "flux-system", components := [], notificationController := "nc",
          eventsAddr := "" } { clockNow := 0, randomSeed := 0 }).lookup "roles/rbac.yaml"
      = some "sa: flux-system/x") := by
  constructor
  · have h := (generate_rbac_namespace_rewrite (fun t o => t ++ ":" ++ o.ns)
      "sa: flux-system/x sa: flux-system/y" "sa: flux-system/x sa: flux-system/y"
      { ns := "gitops", components := [], notificationController := "nc",
        eventsAddr := "" } { clockNow := 0, randomSeed := 0 }).1 (by decide)
    rw [h]
    decide
  · exact (generate_rbac_namespace_rewrite (fun t o => t ++ ":" ++ o.ns)
      "sa: flux-system/x" "sa: flux-system/x"
      { ns := "flux-system", components := [], notificationController := "nc",
        eventsAddr := "" } { clockNow := 0, randomSeed := 0 }).2.1 rfl

end Install

namespace Bootstrap

/-- Decidable equality for `Except`, needed to evaluate the model on
concrete inputs. -/
instance exceptDecidableEq {ε α : Type} [DecidableEq ε] [DecidableEq α] :
    DecidableEq (Except ε α) := fun x y =>
  match x, y with
  | .ok a, .ok b =>
    if h : a = b then isTrue (by rw [h])
    else isFalse (by intro hc; cases hc; exact h rfl)
  | .error a, .error b =>
    if h : a = b then isTrue (by rw [h])
    else isFalse (by intro hc; cases hc; exact h rfl)
  | .ok _, .error _ => isFalse (by intro hc; cases hc)
  | .error _, .ok _ => isFalse (by intro hc; cases hc)

/-- Key-value content of the cluster credential secret. -/
abbrev SecretContent := List (String × String)

/-- The external side-effecting calls made by `bootstrapGitLabCmdRun`, in
invocation order. The commit events record the `(changed, err)` outcome
returned by `repository.Commit`. -/
inductive Event where
  | createRepository
  | checkout
  | generateInstall
  | commitInstall (result : Except String Bool)
  | pushInstall
  | queryComponentsInstalled
  | applyInstall
  | waitInstallReady
  | queryDeployKeySecret
  | generateDeployKey
  | addDeployKey
  | upsertSecret
  | generateSync
  | commitSync (result : Except String Bool)
  | pushSync
  | applySync
deriving DecidableEq

/-- Outcomes of all external calls of one `bootstrapGitLabCmdRun`
invocation, supplied as an oracle. Calls whose bodies are not among the
sources are modelled from the spec, as documented on `bootstrapGitLabCmdRun`. -/
structure RunEnv where
  token : String
  validateOk : Bool
  newRepositoryOk : Bool
  createRepository : Except String Bool
  checkout : Option String
  generateInstall : Except String String
  commitInstall : Except String Bool
  pushInstall : Option String
  componentsMissing : Bool
  applyInstall : Option String
  waitInstallReady : Ready.PollResult
  sshHostname : String
  freshDeployKey : String
  keyGenFails : Option String
  addDeployKey : Except String Bool
  upsertSecretFails : Option String
  generateSync : Option String
  commitSync : Except String Bool
  pushSync : Option String
  applySync : Option String
  initialSecret : Option SecretContent
deriving DecidableEq

/-- The result of one orchestrator run: the ordered trace of external
calls, the cluster credential secret after the run, and `none` on
successful completion or the surfaced error. -/
structure RunResult where
  trace : List Event
  secret : Option SecretContent
  result : Option String
deriving DecidableEq

/-- The HTTPS token-auth secret `bootstrapGitLabCmdRun` upserts:
`username: git`, `password: <token>`. -/
def tokenSecretContent (token : String) : SecretContent :=
  [("username", "git"), ("password", token)]

/-- Modelled from the spec: the secret written by `generateDeployKey`
(whose body is not among the sources) holds the generated key material. -/
def deployKeySecretContent (key : String) : SecretContent :=
  [("identity", key)]

/-- The install phase of the run (`shouldInstallManifests` probe, then
`applyInstallManifests` when components are missing). The bodies of both
helpers are not among the sources and are modelled from the spec:
`shouldInstallManifests` only probes the cluster for the components,
`applyInstallManifests` applies the installation artifact set and then
waits for the installation targets to report the Ready condition,
surfacing a readiness failure or a distinguishable timeout. -/
def installApplyPhase (env : RunEnv) : List Event × Option String :=
  if env.componentsMissing then
    match env.applyInstall with
    | some e => ([.queryComponentsInstalled, .applyInstall], some e)
    | none =>
      match env.waitInstallReady with
      | .failed m =>
        ([.queryComponentsInstalled, .applyInstall, .waitInstallReady], some m)
      | .timedOut =>
        ([.queryComponentsInstalled, .applyInstall, .waitInstallReady],
         some "timed out waiting for components to become ready")
      | .ready =>
        ([.queryComponentsInstalled, .applyInstall, .waitInstallReady], none)
  else ([.queryComponentsInstalled], none)

/-- The credential phase of the run (lines 181-224 of
`bootstrap_gitlab.go`). On the deploy-key path (`--ssh-hostname` given)
the existence probe `shouldCreateDeployKey` — modelled from the spec:
it reports whether a credential secret of the logical name already exists
— gates key generation, and `generateDeployKey` (modelled from the spec:
generates the keypair, scans the host identity and stores the secret)
runs only when the probe found none; on the token path the
`username/password` secret is unconditionally upserted from the current
token. Returns (events, secret after the phase, error). -/
def credentialPhase (env : RunEnv) (secret0 : Option SecretContent) :
    List Event × Option SecretContent × Option String :=
  if env.sshHostname ≠ "" then
    if secret0.isNone then
      match env.keyGenFails with
      | some e => ([.queryDeployKeySecret, .generateDeployKey], secret0, some e)
      | none =>
        match env.addDeployKey with
        | .error e =>
          ([.queryDeployKeySecret, .generateDeployKey, .addDeployKey],
           some (deployKeySecretContent env.freshDeployKey), some e)
        | .ok _ =>
          ([.queryDeployKeySecret, .generateDeployKey, .addDeployKey],
           some (deployKeySecretContent env.freshDeployKey), none)
    else ([.queryDeployKeySecret], secret0, none)
  else
    match env.upsertSecretFails with
    | some e => ([.upsertSecret], secret0, some e)
    | none => ([.upsertSecret], some (tokenSecretContent env.token), none)

/-- The sync phase of the run: `generateSyncManifests`, the second
`repository.Commit`, `repository.Push` only when that commit reported a
change, then `applySyncManifests`. The helper bodies are not among the
sources; modelled from the spec, they generate and apply the sync-pointer
artifact set and do not touch the credential secret. -/
def syncPhase (env : RunEnv) (secret : Option SecretContent) : RunResult :=
  match env.generateSync with
  | some e => ⟨[.generateSync], secret, some e⟩
  | none =>
    match env.commitSync with
    | .error e => ⟨[.generateSync, .commitSync (.error e)], secret, some e⟩
    | .ok true =>
      match env.pushSync with
      | some e =>
        ⟨[.generateSync, .commitSync (.ok true), .pushSync], secret, some e⟩
      | none =>
        match env.applySync with
        | some e =>
          ⟨[.generateSync, .commitSync (.ok true), .pushSync, .applySync],
           secret, some e⟩
        | none =>
          ⟨[.generateSync, .commitSync (.ok true), .pushSync, .applySync],
           secret, none⟩
    | .ok false =>
      match env.applySync with
      | some e => ⟨[.generateSync, .commitSync (.ok false), .applySync], secret, some e⟩
      | none => ⟨[.generateSync, .commitSync (.ok false), .applySync], secret, none⟩

/-- The run from the point after the first commit-and-push: install phase,
credential phase, sync phase, threading the trace and the secret. -/
def afterCommitInstall (env : RunEnv) (pre : List Event) : RunResult :=
  let step := installApplyPhase env
  match step.2 with
  | some e => ⟨pre ++ step.1, env.initialSecret, some e⟩
  | none =>
    let cred := credentialPhase env env.initialSecret
    match cred.2.2 with
    | some e => ⟨pre ++ step.1 ++ cred.1, cred.2.1, some e⟩
    | none =>
      let syncr := syncPhase env cred.2.1
      ⟨pre ++ step.1 ++ cred.1 ++ syncr.trace, syncr.secret, syncr.result⟩

/-- `bootstrapGitLabCmdRun` of `cmd/flux/bootstrap_gitlab.go` as a pure
function of the outcomes of its external calls: token check, validation,
repository config, `provider.CreateRepository`, `repository.Checkout`,
`generateInstallManifests`, `repository.Commit` with `repository.Push`
only when the commit reported a change, the install phase, the credential
phase and the sync phase, aborting at the first error exactly where the
Go function returns. The `repository.*` operations come from the external
`fluxcd/pkg/git` package and follow the repository-driver contract of
the spec; the `generate*`/`apply*`/`should*` helper bodies are likewise
not among the sources and are modelled from the spec. -/
def bootstrapGitLabCmdRun (env : RunEnv) : RunResult :=
  if env.token = "" then
    ⟨[], env.initialSecret, some "GITLAB_TOKEN environment variable not found"⟩
  else if env.validateOk = false then ⟨[], env.initialSecret, some "validation failed"⟩
  else if env.newRepositoryOk = false then
    ⟨[], env.initialSecret, some "repository configuration failed"⟩
  else
    match env.createRepository with
    | .error e => ⟨[.createRepository], env.initialSecret, some e⟩
    | .ok _ =>
      match env.checkout with
      | some e => ⟨[.createRepository, .checkout], env.initialSecret, some e⟩
      | none =>
        match env.generateInstall with
        | .error e =>
          ⟨[.createRepository, .checkout, .generateInstall], env.initialSecret, some e⟩
        | .ok _ =>
          match env.commitInstall with
          | .error e =>
            ⟨[.createRepository, .checkout, .generateInstall, .commitInstall (.error e)],
             env.initialSecret, some e⟩
          | .ok true =>
            match env.pushInstall with
            | some e =>
              ⟨[.createRepository, .checkout, .generateInstall,
                .commitInstall (.ok true), .pushInstall], env.initialSecret, some e⟩
            | none =>
              afterCommitInstall env
                [.createRepository, .checkout, .generateInstall,
                 .commitInstall (.ok true), .pushInstall]
          | .ok false =>
            afterCommitInstall env
              [.createRepository, .checkout, .generateInstall, .commitInstall (.ok false)]

/-- The install phase only emits install-phase events. -/
theorem installApplyPhase_events (env : RunEnv) :
    ∀ e ∈ (installApplyPhase env).1,
      e = Event.queryComponentsInstalled ∨ e = Event.applyInstall
      ∨ e = Event.waitInstallReady := by
  intro e he
  unfold installApplyPhase at he
  repeat' split at he
  all_goals simp at he
  all_goals tauto

/-- When components are missing, a successful install phase means the
apply succeeded and the readiness wait reported Ready, and the phase
trace is the full probe-apply-wait sequence. -/
theorem installApplyPhase_success (env : RunEnv)
    (hc : env.componentsMissing = true)
    (hok : (installApplyPhase env).2 = none) :
    env.applyInstall = none ∧ env.waitInstallReady = .ready
    ∧ (installApplyPhase env).1
      = [Event.queryComponentsInstalled, Event.applyInstall, Event.waitInstallReady] := by
  unfold installApplyPhase at hok ⊢
  cases ha : env.applyInstall with
  | some m => simp [hc, ha] at hok
  | none =>
    cases hw : env.waitInstallReady <;> simp [hc, ha, hw] at hok ⊢

/-- When components are missing and the apply fails or the readiness wait
does not report Ready, the install phase surfaces an error. -/
theorem installApplyPhase_failure (env : RunEnv)
    (hc : env.componentsMissing = true)
    (hf : env.applyInstall ≠ none ∨ env.waitInstallReady ≠ .ready) :
    (installApplyPhase env).2 ≠ none := by
  unfold installApplyPhase
  cases ha : env.applyInstall with
  | some m => simp [hc, ha]
  | none =>
    cases hw : env.waitInstallReady with
    | ready => rw [ha, hw] at hf; simp at hf
    | failed m => simp [hc, ha, hw]
    | timedOut => simp [hc, ha, hw]

/-- On the deploy-key path with an existing credential secret, the
credential phase only probes for the secret and leaves it untouched. -/
theorem credentialPhase_existing_key (env : RunEnv) (s : SecretContent)
    (hssh : env.sshHostname ≠ "") :
    credentialPhase env (some s) = ([Event.queryDeployKeySecret], some s, none) := by
  simp [credentialPhase, hssh]

/-- The credential phase only emits credential-phase events. -/
theorem credentialPhase_events (env : RunEnv) (s : Option SecretContent) :
    ∀ e ∈ (credentialPhase env s).1,
      e = Event.queryDeployKeySecret ∨ e = Event.generateDeployKey
      ∨ e = Event.addDeployKey ∨ e = Event.upsertSecret := by
  intro e he
  unfold credentialPhase at he
  repeat' split at he
  all_goals simp at he
  all_goals tauto

/-- Key generation happens only on the deploy-key path, only when the
existence probe found no secret, and only after that probe. -/
theorem credentialPhase_keygen (env : RunEnv) (s : Option SecretContent)
    (hgen : Event.generateDeployKey ∈ (credentialPhase env s).1) :
    env.sshHostname ≠ "" ∧ s = none
    ∧ [Event.queryDeployKeySecret, Event.generateDeployKey].Sublist
        (credentialPhase env s).1 := by
  unfold credentialPhase at hgen ⊢
  by_cases hssh : env.sshHostname ≠ ""
  · by_cases hs : s.isNone
    · have hs' : s = none := Option.isNone_iff_eq_none.mp hs
      cases hk : env.keyGenFails with
      | some m => simp [hssh, hs, hs', hk]
      | none =>
        cases ha : env.addDeployKey with
        | error m => simp [hssh, hs, hs', hk, ha]
        | ok b => simp [hssh, hs, hs', hk, ha]
    · simp [hssh, hs] at hgen
  · cases hu : env.upsertSecretFails with
    | some m => simp [hssh, hu] at hgen
    | none => simp [hssh, hu] at hgen

/-- The sync-phase trace always begins with the sync generation event. -/
theorem syncPhase_trace_head (env : RunEnv) (s : Option SecretContent) :
    ∃ rest, (syncPhase env s).trace = Event.generateSync :: rest := by
  unfold syncPhase
  repeat' split
  all_goals exact ⟨_, rfl⟩

/-- The sync phase never touches the credential secret. -/
theorem syncPhase_secret (env : RunEnv) (s : Option SecretContent) :
    (syncPhase env s).secret = s := by
  unfold syncPhase
  repeat' split
  all_goals rfl

/-- The sync phase emits no install-phase or credential-phase events. -/
theorem syncPhase_no_foreign_events (env : RunEnv) (s : Option SecretContent) :
    Event.generateDeployKey ∉ (syncPhase env s).trace
    ∧ Event.queryDeployKeySecret ∉ (syncPhase env s).trace
    ∧ Event.applyInstall ∉ (syncPhase env s).trace
    ∧ Event.upsertSecret ∉ (syncPhase env s).trace
    ∧ Event.pushInstall ∉ (syncPhase env s).trace := by
  unfold syncPhase
  repeat' split
  all_goals simp

/-- Every run either reaches the phase composition after the first
commit-and-push, with one of the two possible concrete event prefixes, or
aborts beforehand with an error, a trace free of install, credential and
sync events, and the credential secret untouched. -/
theorem run_cases (env : RunEnv) :
    bootstrapGitLabCmdRun env
      = afterCommitInstall env [.createRepository, .checkout, .generateInstall,
          .commitInstall (.ok true), .pushInstall]
    ∨ bootstrapGitLabCmdRun env
      = afterCommitInstall env [.createRepository, .checkout, .generateInstall,
          .commitInstall (.ok false)]
    ∨ ((bootstrapGitLabCmdRun env).result ≠ none
       ∧ Event.generateSync ∉ (bootstrapGitLabCmdRun env).trace
       ∧ Event.applySync ∉ (bootstrapGitLabCmdRun env).trace
       ∧ Event.applyInstall ∉ (bootstrapGitLabCmdRun env).trace
       ∧ Event.waitInstallReady ∉ (bootstrapGitLabCmdRun env).trace
       ∧ Event.generateDeployKey ∉ (bootstrapGitLabCmdRun env).trace
       ∧ Event.queryDeployKeySecret ∉ (bootstrapGitLabCmdRun env).trace
       ∧ Event.upsertSecret ∉ (bootstrapGitLabCmdRun env).trace
       ∧ Event.pushSync ∉ (bootstrapGitLabCmdRun env).trace
       ∧ (bootstrapGitLabCmdRun env).secret = env.initialSecret) := by
  unfold bootstrapGitLabCmdRun
  repeat' split
  all_goals first
    | exact Or.inl rfl
    | exact Or.inr (Or.inl rfl)
    | (refine Or.inr (Or.inr ?_); simp)

/-- C2: a second orchestrator run against an already-bootstrapped target
and repository — both commit steps report no changes, the components are
already present, and the credential secret already exists (deploy-key
path) or the token upsert succeeds (token path) — performs zero git
writes: no push is ever invoked after a commit step that reported no
changes, both commit events carry the no-change outcome, no deploy key is
generated, and the run reaches successful completion. -/
theorem second_run_zero_git_writes (env : RunEnv) (m : String)
    (htok : env.token ≠ "") (hval : env.validateOk = true)
    (hrep : env.newRepositoryOk = true)
    (hcr : env.createRepository = .ok false)
    (hco : env.checkout = none)
    (hgi : env.generateInstall = .ok m)
    (hci : env.commitInstall = .ok false)
    (hinst : env.componentsMissing = false)
    (hcred : (env.sshHostname ≠ "" ∧ ∃ s, env.initialSecret = some s)
             ∨ (env.sshHostname = "" ∧ env.upsertSecretFails = none))
    (hgs : env.generateSync = none)
    (hcs : env.commitSync = .ok false)
    (has : env.applySync = none) :
    Event.pushInstall ∉ (bootstrapGitLabCmdRun env).trace
    ∧ Event.pushSync ∉ (bootstrapGitLabCmdRun env).trace
    ∧ Event.generateDeployKey ∉ (bootstrapGitLabCmdRun env).trace
    ∧ (∀ r, Event.commitInstall r ∈ (bootstrapGitLabCmdRun env).trace → r = .ok false)
    ∧ (∀ r, Event.commitSync r ∈ (bootstrapGitLabCmdRun env).trace → r = .ok false)
    ∧ (bootstrapGitLabCmdRun env).result = none := by
  have hrun : bootstrapGitLabCmdRun env
      = afterCommitInstall env [.createRepository, .checkout, .generateInstall,
          .commitInstall (.ok false)] := by
    unfold bootstrapGitLabCmdRun
    simp [htok, hval, hrep, hcr, hco, hgi, hci]
  rcases hcred with ⟨hssh, s, hsec⟩ | ⟨hssh, hup⟩
  · rw [hrun]
    unfold afterCommitInstall
    simp only [installApplyPhase, hinst, Bool.false_eq_true, if_false, hsec,
      credentialPhase_existing_key env s hssh]
    unfold syncPhase
    simp [hgs, hcs, has]
  · rw [hrun]
    unfold afterCommitInstall
    simp only [installApplyPhase, hinst, Bool.false_eq_true, if_false]
    unfold credentialPhase
    simp only [hssh, ne_eq, not_true_eq_false, if_false, hup,
      not_false_eq_true, if_neg]
    unfold syncPhase
    simp [hgs, hcs, has, hssh]

/-- An already-bootstrapped environment for the token-auth path: nothing
to commit, components present, the credential secret already holds the
token material. -/
def secondRunTokenEnv : RunEnv :=
  { token := "glpat-123", validateOk := true, newRepositoryOk := true
    createRepository := .ok false, checkout := none
    generateInstall := .ok "manifests", commitInstall := .ok false
    pushInstall := none, componentsMissing := false, applyInstall := none
    waitInstallReady := .ready, sshHostname := "", freshDeployKey := "pk"
    keyGenFails := none, addDeployKey := .ok false, upsertSecretFails := none
    generateSync := none, commitSync := .ok false, pushSync := none
    applySync := none, initialSecret := some (tokenSecretContent "glpat-123") }

/-- C2 witness: the theorem applied to the concrete second-run
environment. -/
theorem second_run_zero_git_writes_witness :
    Event.pushInstall ∉ (bootstrapGitLabCmdRun secondRunTokenEnv).trace
    ∧ Event.pushSync ∉ (bootstrapGitLabCmdRun secondRunTokenEnv).trace
    ∧ Event.generateDeployKey ∉ (bootstrapGitLabCmdRun secondRunTokenEnv).trace
    ∧ (∀ r, Event.commitInstall r ∈ (bootstrapGitLabCmdRun secondRunTokenEnv).trace →
        r = .ok false)
    ∧ (∀ r, Event.commitSync r ∈ (bootstrapGitLabCmdRun secondRunTokenEnv).trace →
        r = .ok false)
    ∧ (bootstrapGitLabCmdRun secondRunTokenEnv).result = none := by
  exact second_run_zero_git_writes secondRunTokenEnv "manifests"
    (by decide) rfl rfl rfl rfl rfl rfl rfl
    (Or.inr ⟨rfl, rfl⟩) rfl rfl rfl

/-- When the install phase fails, the run aborts there: past the given
prefix no sync event can appear in the trace. -/
theorem no_sync_in_failed_afterCommitInstall (env : RunEnv) (pre : List Event)
    (hpre1 : Event.generateSync ∉ pre) (hpre2 : Event.applySync ∉ pre)
    (hstep : (installApplyPhase env).2 ≠ none) :
    Event.generateSync ∉ (afterCommitInstall env pre).trace
    ∧ Event.applySync ∉ (afterCommitInstall env pre).trace := by
  cases hs2 : (installApplyPhase env).2 with
  | none => exact absurd hs2 hstep
  | some e =>
    simp only [afterCommitInstall, hs2]
    constructor
    · intro hmem
      simp only [List.mem_append] at hmem
      rcases hmem with h | h
      · exact hpre1 h
      · have := installApplyPhase_events env _ h
        simp at this
    · intro hmem
      simp only [List.mem_append] at hmem
      rcases hmem with h | h
      · exact hpre2 h
      · have := installApplyPhase_events env _ h
        simp at this

/-- When sync generation appears in the trace past the given prefix, the
install phase succeeded — the apply ran and the readiness wait reported
Ready — and the apply and wait events precede the sync generation
event. -/
theorem sync_in_afterCommitInstall (env : RunEnv) (pre : List Event)
    (hinst : env.componentsMissing = true)
    (hpre : Event.generateSync ∉ pre)
    (hmem : Event.generateSync ∈ (afterCommitInstall env pre).trace) :
    env.waitInstallReady = .ready ∧ env.applyInstall = none
    ∧ [Event.applyInstall, Event.waitInstallReady, Event.generateSync].Sublist
        (afterCommitInstall env pre).trace := by
  cases hs2 : (installApplyPhase env).2 with
  | some e =>
    exfalso
    simp only [afterCommitInstall, hs2, List.mem_append] at hmem
    rcases hmem with h | h
    · exact hpre h
    · have := installApplyPhase_events env _ h
      simp at this
  | none =>
    obtain ⟨hap, hwr, htr⟩ := installApplyPhase_success env hinst hs2
    cases hc2 : (credentialPhase env env.initialSecret).2.2 with
    | some e =>
      exfalso
      simp only [afterCommitInstall, hs2, hc2, List.mem_append] at hmem
      rcases hmem with (h | h) | h
      · exact hpre h
      · have := installApplyPhase_events env _ h
        simp at this
      · have := credentialPhase_events env _ _ h
        simp at this
    | none =>
      refine ⟨hwr, hap, ?_⟩
      simp only [afterCommitInstall, hs2, hc2]
      obtain ⟨rest, hsync⟩ :=
        syncPhase_trace_head env (credentialPhase env env.initialSecret).2.1
      have h1 : [Event.applyInstall, Event.waitInstallReady].Sublist
          (pre ++ (installApplyPhase env).1) := by
        rw [htr]
        exact List.Sublist.trans
          (by decide : [Event.applyInstall, Event.waitInstallReady].Sublist
            [Event.queryComponentsInstalled, Event.applyInstall, Event.waitInstallReady])
          (List.sublist_append_right pre _)
      have h2 : [Event.generateSync].Sublist
          ((credentialPhase env env.initialSecret).1
            ++ (syncPhase env (credentialPhase env env.initialSecret).2.1).trace) := by
        rw [hsync]
        exact List.Sublist.trans
          (List.Sublist.cons₂ _ (List.nil_sublist rest))
          (List.sublist_append_right _ _)
      have h3 := h1.append h2
      simpa [List.append_assoc] using h3

/-- C4 (amended): in every execution in which the installation components
are missing — so the install step is not skipped — the sync-pointer
artifact set is generated and applied only after the installation
artifact set has been applied and the installation targets have been
observed Ready: if the apply fails or the readiness wait does not report
Ready, sync-manifest generation and apply are never invoked, and whenever
sync generation occurs the apply and Ready observation occurred earlier
in the trace. -/
theorem sync_only_after_install_ready (env : RunEnv)
    (hinst : env.componentsMissing = true) :
    ((env.applyInstall ≠ none ∨ env.waitInstallReady ≠ .ready) →
      Event.generateSync ∉ (bootstrapGitLabCmdRun env).trace
      ∧ Event.applySync ∉ (bootstrapGitLabCmdRun env).trace)
    ∧ (Event.generateSync ∈ (bootstrapGitLabCmdRun env).trace →
      env.waitInstallReady = .ready ∧ env.applyInstall = none
      ∧ [Event.applyInstall, Event.waitInstallReady, Event.generateSync].Sublist
          (bootstrapGitLabCmdRun env).trace) := by
  constructor
  · intro hf
    have hstep := installApplyPhase_failure env hinst hf
    rcases run_cases env with hr | hr | hr
    · rw [hr]
      exact no_sync_in_failed_afterCommitInstall env _ (by decide) (by decide) hstep
    · rw [hr]
      exact no_sync_in_failed_afterCommitInstall env _ (by decide) (by decide) hstep
    · exact ⟨hr.2.1, hr.2.2.1⟩
  · intro hmem
    rcases run_cases env with hr | hr | hr
    · rw [hr] at hmem ⊢
      exact sync_in_afterCommitInstall env _ hinst (by decide) hmem
    · rw [hr] at hmem ⊢
      exact sync_in_afterCommitInstall env _ hinst (by decide) hmem
    · exact absurd hmem hr.2.1

/-- A first-run environment on the token path: components missing, the
install apply succeeds and the readiness wait reports Ready, everything
else succeeds with changes committed and pushed. -/
def firstRunEnv : RunEnv :=
  { token := "glpat-123", validateOk := true, newRepositoryOk := true
    createRepository := .ok true, checkout := none
    generateInstall := .ok "manifests", commitInstall := .ok true
    pushInstall := none, componentsMissing := true, applyInstall := none
    waitInstallReady := .ready, sshHostname := "", freshDeployKey := "pk"
    keyGenFails := none, addDeployKey := .ok false, upsertSecretFails := none
    generateSync := none, commitSync := .ok true, pushSync := none
    applySync := none, initialSecret := none }

/-- The same first-run environment with the readiness wait reporting a
Failed condition. -/
def failedInstallEnv : RunEnv :=
  { firstRunEnv with waitInstallReady := .failed "notification-controller failed" }

/-- C4 witness: the amended theorem applied to the concrete failed-install
run (no sync generation or apply) and to the successful first run (the
ordering sublist). -/
theorem sync_only_after_install_ready_witness :
    (Event.generateSync ∉ (bootstrapGitLabCmdRun failedInstallEnv).trace
      ∧ Event.applySync ∉ (bootstrapGitLabCmdRun failedInstallEnv).trace)
    ∧ [Event.applyInstall, Event.waitInstallReady, Event.generateSync].Sublist
        (bootstrapGitLabCmdRun firstRunEnv).trace := by
  constructor
  · exact (sync_only_after_install_ready failedInstallEnv rfl).1
      (Or.inr (by decide))
  · exact ((sync_only_after_install_ready firstRunEnv rfl).2 (by decide)).2.2

/-- A re-run environment on the token path in which the components are
already present, so the install apply is skipped entirely. -/
def skippedInstallEnv : RunEnv :=
  { firstRunEnv with componentsMissing := false, commitInstall := .ok false
                     commitSync := .ok false
                     initialSecret := some (tokenSecretContent "glpat-123") }

/-- C4 counterexample: an execution in which the cluster already has the
components — `shouldInstallManifests` reports nothing to install — so the
run generates and applies the sync-pointer artifact set without ever
applying the installation artifact set or observing the installation
targets Ready in that execution, refuting the claim for every
execution. -/
theorem sync_without_install_apply_counterexample :
    Event.generateSync ∈ (bootstrapGitLabCmdRun skippedInstallEnv).trace
    ∧ Event.applySync ∈ (bootstrapGitLabCmdRun skippedInstallEnv).trace
    ∧ Event.applyInstall ∉ (bootstrapGitLabCmdRun skippedInstallEnv).trace
    ∧ Event.waitInstallReady ∉ (bootstrapGitLabCmdRun skippedInstallEnv).trace
    ∧ (bootstrapGitLabCmdRun skippedInstallEnv).result = none := by decide

/-- On the deploy-key path with an existing credential secret, the run
past the prefix never generates a key and leaves the secret content
untouched. -/
theorem afterCommitInstall_existing_key (env : RunEnv) (pre : List Event)
    (s : SecretContent) (hssh : env.sshHostname ≠ "")
    (hsec : env.initialSecret = some s)
    (hpre : Event.generateDeployKey ∉ pre) :
    (afterCommitInstall env pre).secret = some s
    ∧ Event.generateDeployKey ∉ (afterCommitInstall env pre).trace := by
  have hcred := credentialPhase_existing_key env s hssh
  cases hs2 : (installApplyPhase env).2 with
  | some e =>
    simp only [afterCommitInstall, hs2]
    refine ⟨hsec, fun hmem => ?_⟩
    simp only [List.mem_append] at hmem
    rcases hmem with h | h
    · exact hpre h
    · have := installApplyPhase_events env _ h
      simp at this
  | none =>
    simp only [afterCommitInstall, hs2, hsec, hcred]
    constructor
    · exact syncPhase_secret env (some s)
    · intro hmem
      simp only [List.mem_append] at hmem
      rcases hmem with ((h | h) | h) | h
      · exact hpre h
      · have := installApplyPhase_events env _ h
        simp at this
      · simp at h
      · exact ((syncPhase_no_foreign_events env (some s)).1) h

/-- When key generation appears in the trace past the prefix, the
existence probe found no secret at run start, and the probe event
precedes the generation event. -/
theorem keygen_in_afterCommitInstall (env : RunEnv) (pre : List Event)
    (hpre : Event.generateDeployKey ∉ pre)
    (hmem : Event.generateDeployKey ∈ (afterCommitInstall env pre).trace) :
    env.initialSecret = none
    ∧ [Event.queryDeployKeySecret, Event.generateDeployKey].Sublist
        (afterCommitInstall env pre).trace := by
  cases hs2 : (installApplyPhase env).2 with
  | some e =>
    exfalso
    simp only [afterCommitInstall, hs2, List.mem_append] at hmem
    rcases hmem with h | h
    · exact hpre h
    · have := installApplyPhase_events env _ h
      simp at this
  | none =>
    cases hc2 : (credentialPhase env env.initialSecret).2.2 with
    | some e =>
      simp only [afterCommitInstall, hs2, hc2, List.mem_append] at hmem
      have hkg : Event.generateDeployKey ∈ (credentialPhase env env.initialSecret).1 := by
        rcases hmem with (h | h) | h
        · exact absurd h hpre
        · exfalso
          have := installApplyPhase_events env _ h
          simp at this
        · exact h
      obtain ⟨_, hnone, hsub⟩ := credentialPhase_keygen env _ hkg
      refine ⟨hnone, ?_⟩
      simp only [afterCommitInstall, hs2, hc2]
      exact hsub.trans (List.sublist_append_right _ _)
    | none =>
      simp only [afterCommitInstall, hs2, hc2, List.mem_append] at hmem
      have hkg : Event.generateDeployKey ∈ (credentialPhase env env.initialSecret).1 := by
        rcases hmem with ((h | h) | h) | h
        · exact absurd h hpre
        · exfalso
          have := installApplyPhase_events env _ h
          simp at this
        · exact h
        · exact absurd h ((syncPhase_no_foreign_events env _).1)
      obtain ⟨_, hnone, hsub⟩ := credentialPhase_keygen env _ hkg
      refine ⟨hnone, ?_⟩
      simp only [afterCommitInstall, hs2, hc2]
      exact hsub.trans ((List.sublist_append_right _ _).trans
        (List.sublist_append_left _ _))

/-- On the token path, a run past the prefix that completes successfully
leaves the secret holding exactly the token material. -/
theorem token_path_secret (env : RunEnv) (pre : List Event)
    (hssh : env.sshHostname = "")
    (hres : (afterCommitInstall env pre).result = none) :
    (afterCommitInstall env pre).secret = some (tokenSecretContent env.token) := by
  cases hs2 : (installApplyPhase env).2 with
  | some e => simp [afterCommitInstall, hs2] at hres
  | none =>
    cases hc2 : (credentialPhase env env.initialSecret).2.2 with
    | some e => simp [afterCommitInstall, hs2, hc2] at hres
    | none =>
      have hcred : credentialPhase env env.initialSecret
          = ([Event.upsertSecret], some (tokenSecretContent env.token), none) := by
        unfold credentialPhase at hc2 ⊢
        cases hu : env.upsertSecretFails with
        | some m => simp [hssh, hu] at hc2
        | none => simp [hssh, hu]
      simp only [afterCommitInstall, hs2, hcred]
      exact syncPhase_secret env _

/-- C6 (amended): on the deploy-key path the provisioner queries secret
existence before any generation — when a credential secret of the logical
name already exists at the start of the run, no key is generated and the
secret content is left byte-identical, and any key generation is preceded
by an existence probe that found no secret. On the basic-token path,
however, the secret is unconditionally upserted from the current token
(no existence query occurs), so a completed run always leaves it holding
exactly the current token material — byte-identical to the prior content
only when that content already equals it. -/
theorem credential_no_silent_rotation (env : RunEnv) :
    (env.sshHostname ≠ "" → ∀ s, env.initialSecret = some s →
      (bootstrapGitLabCmdRun env).secret = some s
      ∧ Event.generateDeployKey ∉ (bootstrapGitLabCmdRun env).trace)
    ∧ (Event.generateDeployKey ∈ (bootstrapGitLabCmdRun env).trace →
      env.initialSecret = none
      ∧ [Event.queryDeployKeySecret, Event.generateDeployKey].Sublist
          (bootstrapGitLabCmdRun env).trace)
    ∧ (env.sshHostname = "" → (bootstrapGitLabCmdRun env).result = none →
      (bootstrapGitLabCmdRun env).secret = some (tokenSecretContent env.token)) := by
  refine ⟨?_, ?_, ?_⟩
  · intro hssh s hsec
    rcases run_cases env with hr | hr | hr
    · rw [hr]
      exact afterCommitInstall_existing_key env _ s hssh hsec (by decide)
    · rw [hr]
      exact afterCommitInstall_existing_key env _ s hssh hsec (by decide)
    · exact ⟨hr.2.2.2.2.2.2.2.2.2.trans hsec, hr.2.2.2.2.2.1⟩
  · intro hmem
    rcases run_cases env with hr | hr | hr
    · rw [hr] at hmem ⊢
      exact keygen_in_afterCommitInstall env _ (by decide) hmem
    · rw [hr] at hmem ⊢
      exact keygen_in_afterCommitInstall env _ (by decide) hmem
    · exact absurd hmem hr.2.2.2.2.2.1
  · intro hssh hres
    rcases run_cases env with hr | hr | hr
    · rw [hr] at hres ⊢
      exact token_path_secret env _ hssh hres
    · rw [hr] at hres ⊢
      exact token_path_secret env _ hssh hres
    · exact absurd hres hr.1

/-- A first-run environment on the deploy-key path: no credential secret
exists yet, so a key is generated after the existence probe. -/
def sshFirstRunEnv : RunEnv :=
  { firstRunEnv with sshHostname := "gitlab.example.com" }

/-- A re-run environment on the deploy-key path: the credential secret
already exists. -/
def sshExistingKeyEnv : RunEnv :=
  { firstRunEnv with sshHostname := "gitlab.example.com"
                     componentsMissing := false, commitInstall := .ok false
                     commitSync := .ok false
                     initialSecret := some [("identity", "oldkey")] }

/-- C6 witness: the amended theorem applied to the deploy-key re-run (no
generation, byte-identical secret), to the deploy-key first run (probe
precedes generation and found nothing), and to the token-path first run
(secret holds the current token). -/
theorem credential_no_silent_rotation_witness :
    ((bootstrapGitLabCmdRun sshExistingKeyEnv).secret = some [("identity", "oldkey")]
      ∧ Event.generateDeployKey ∉ (bootstrapGitLabCmdRun sshExistingKeyEnv).trace)
    ∧ (sshFirstRunEnv.initialSecret = none
      ∧ [Event.queryDeployKeySecret, Event.generateDeployKey].Sublist
          (bootstrapGitLabCmdRun sshFirstRunEnv).trace)
    ∧ (bootstrapGitLabCmdRun firstRunEnv).secret
        = some (tokenSecretContent firstRunEnv.token) := by
  refine ⟨?_, ?_, ?_⟩
  · exact (credential_no_silent_rotation sshExistingKeyEnv).1 (by decide)
      [("identity", "oldkey")] rfl
  · exact (credential_no_silent_rotation sshFirstRunEnv).2.1 (by decide)
  · exact (credential_no_silent_rotation firstRunEnv).2.2 rfl (by decide)

/-- A token-path re-run whose environment token differs from the stored
one. -/
def staleTokenEnv : RunEnv :=
  { firstRunEnv with componentsMissing := false, commitInstall := .ok false
                     commitSync := .ok false, token := "glpat-NEW"
                     initialSecret := some (tokenSecretContent "glpat-OLD") }

/-- C6 counterexample: on the basic-token path a credential secret of the
logical name already exists at run start, yet the run performs no
existence query, unconditionally upserts the secret, and leaves its
content different from the pre-existing content — refuting both the
query-before-generation-on-every-path claim and byte-identical
preservation. -/
theorem credential_overwrite_counterexample :
    staleTokenEnv.initialSecret = some (tokenSecretContent "glpat-OLD")
    ∧ (bootstrapGitLabCmdRun staleTokenEnv).result = none
    ∧ (bootstrapGitLabCmdRun staleTokenEnv).secret ≠ staleTokenEnv.initialSecret
    ∧ Event.upsertSecret ∈ (bootstrapGitLabCmdRun staleTokenEnv).trace
    ∧ Event.queryDeployKeySecret ∉ (bootstrapGitLabCmdRun staleTokenEnv).trace := by
  decide

end Bootstrap
